import Mathlib

/-!
# drone-kubulous: the Service applier, the settlement watcher and the plugin glue

A shallow embedding of `service.go` and of the parts of `plugin.go` that build the
template context and resolve the namespace.

Modelling conventions

* The Kubernetes clientset is an external collaborator.  It is a record of
  state-passing operations over an arbitrary store state `σ`; every operation returns
  the Go result pair (value pointer, error) together with the next store state.
* A Go pointer result is an `Option`; a Go `error` is an `Option Error` (`none` = nil).
* Every function that talks to the store also returns the list of calls it issued, in
  order, so that "no Delete was issued" is a statement about that list.
* The watch channel is the list of deliveries still to come.  A receive on an exhausted
  list blocks forever.  A closed channel delivers the zero `Event`, so a closed channel
  is a list that ends in `zeroEvent`.
* A run of the watcher ends in `returned`, `panicked` (Go run-time panic) or `blocked`.
-/

namespace Kubulous

/-! ## Data model -/

/-- Go `error` values as far as the code inspects them: an `*errors.StatusError`
carrying `Status().Code`, or any other error. -/
inductive Error where
  | StatusError (code : Int) (message : String)
  | other (message : String)
  deriving DecidableEq, Repr

/-- The test `ok == true && statusError.Status().Code == 404` of `service.go`. -/
def Error.isNotFound : Error → Bool
  | .StatusError code _ => code == 404
  | .other _ => false

/-- One entry of `Status.LoadBalancer.Ingress`. -/
structure LoadBalancerIngress where
  IP : String
  Hostname : String
  deriving DecidableEq, Repr

/-- The fields of `corev1.Service` that the code reads: `Name` and
`Status.LoadBalancer.Ingress`. -/
structure Service where
  Name : String
  Ingress : List LoadBalancerIngress
  deriving DecidableEq, Repr

/-- The dynamic content of `watch.Event.Object` (a `runtime.Object` interface value). -/
inductive Object where
  | nil
  | Service (service : Service)
  | other (typeName : String)
  deriving DecidableEq, Repr

/-- A `watch.Event`. -/
structure Event where
  EventType : String
  Object : Object
  deriving DecidableEq, Repr

/-- The zero `watch.Event`, which a receive on a closed channel yields. -/
def zeroEvent : Event := ⟨"", Object.nil⟩

/-- A `watch.Interface`: the deliveries its `ResultChan()` still has to make. -/
structure Watcher where
  ResultChan : List Event
  deriving DecidableEq, Repr

/-- The calls issued against `clientset.CoreV1().Services(ns)`. -/
inductive Call where
  | Get (ns name : String)
  | Delete (ns name : String)
  | Create (ns : String) (service : Service)
  | Watch (ns fieldSelector : String)
  deriving DecidableEq, Repr

/-- The operations of `clientset.CoreV1().Services(namespace)` used by `service.go`,
over a store state `σ`. -/
structure Clientset (σ : Type) where
  Get : String → String → σ → (Option Service × Option Error) × σ
  Delete : String → String → σ → Option Error × σ
  Create : String → Service → σ → (Option Service × Option Error) × σ
  Watch : String → String → σ → (Option Watcher × Option Error) × σ

/-- What a store-facing function hands back: its Go results, the next store state and
the calls it issued. -/
structure Ran (σ α : Type) where
  value : α
  store : σ
  calls : List Call

/-- How a run of the watcher ends. -/
inductive Outcome where
  | returned (state : String) (err : Option Error)
  | panicked
  | blocked
  deriving DecidableEq, Repr

/-- The end of a watcher run together with the number of events taken off the channel. -/
structure Settled where
  outcome : Outcome
  consumed : Nat
  deriving DecidableEq, Repr

/-! ## service.go -/

/-- The constant `serviceUpdateAttempts`. -/
def serviceUpdateAttempts : Nat := 10

/-- The function `serviceExists`: a 404 from `Get` is "no such service", any other error is
handed back. -/
def serviceExists {σ : Type} (clientset : Clientset σ) (ns name : String) (s : σ) :
    Ran σ (Option Service × Option Error) :=
  match clientset.Get ns name s with
  | ((service, err), s1) =>
    match err with
    | some e =>
      if e.isNotFound then ⟨(none, none), s1, [Call.Get ns name]⟩
      else ⟨(none, some e), s1, [Call.Get ns name]⟩
    | none => ⟨(service, none), s1, [Call.Get ns name]⟩

/-- The function `deleteService`: `(true, nil)` on success, `(false, nil)` on a 404,
`(false, err)` otherwise. -/
def deleteService {σ : Type} (clientset : Clientset σ) (ns : String) (service : Service)
    (s : σ) : Ran σ (Bool × Option Error) :=
  match clientset.Delete ns service.Name s with
  | (err, s1) =>
    match err with
    | some e =>
      if e.isNotFound then ⟨(false, none), s1, [Call.Delete ns service.Name]⟩
      else ⟨(false, some e), s1, [Call.Delete ns service.Name]⟩
    | none => ⟨(true, none), s1, [Call.Delete ns service.Name]⟩

/-- Lines 27-29 of `CreateOrUpdateService`: issue `Create` and return its error. -/
def createAndReturn {σ : Type} (clientset : Clientset σ) (ns : String) (service : Service)
    (s : σ) (issued : List Call) : Ran σ (Option Error) :=
  match clientset.Create ns service s with
  | ((_, err), s1) => ⟨err, s1, issued ++ [Call.Create ns service]⟩

/-- The function `CreateOrUpdateService`.  The error of `serviceExists` is bound to `err`
and then overwritten by the `Create` call without having been inspected. -/
def CreateOrUpdateService {σ : Type} (clientset : Clientset σ) (ns : String)
    (service : Service) (s : σ) : Ran σ (Option Error) :=
  let existing := serviceExists clientset ns service.Name s
  match existing.value.1 with
  | some _ =>
    let deleted := deleteService clientset ns service existing.store
    if !deleted.value.1 && deleted.value.2.isSome then
      ⟨deleted.value.2, deleted.store, existing.calls ++ deleted.calls⟩
    else
      createAndReturn clientset ns service deleted.store (existing.calls ++ deleted.calls)
  | none => createAndReturn clientset ns service existing.store existing.calls

/-- The body of both `range` loops: the entry's IP, or its Hostname when the IP is empty. -/
def ingressAddress (i : LoadBalancerIngress) : String :=
  if i.IP = "" then i.Hostname else i.IP

/-- The `range` loop appending one address per entry to `ingressList`. -/
def appendIngress (ingressList : List String) (entries : List LoadBalancerIngress) :
    List String :=
  entries.foldl (fun acc i => acc ++ [ingressAddress i]) ingressList

/-- The success status: `fmt.Sprintf("📦 Updated: %s", strings.Join(ingressList, ", "))`. -/
def updatedMessage (ingressList : List String) : String :=
  "📦 Updated: " ++ ", ".intercalate ingressList

/-- The exhaustion status:
`fmt.Sprintf("⛔️ Service update failed. Exceeded %d attempts", attempts)`. -/
def exceededMessage (attempts : Nat) : String :=
  "⛔️ Service update failed. Exceeded " ++ toString attempts ++ " attempts"

/-- The `for attempts := 0; ; attempts++` loop of `waitUntilServiceSettled`, started with
`attempts` and `consumed` events already taken.  `ingressList` and `err` are the
variables of the enclosing function. -/
def settleLoop (ingressList : List String) (err : Option Error) :
    List Event → Nat → Nat → Settled
  | [], _, consumed => ⟨Outcome.blocked, consumed⟩
  | event :: rest, attempts, consumed =>
    match event.Object with
    | Object.Service service =>
      if service.Ingress.length > 0 then
        ⟨Outcome.returned (updatedMessage (appendIngress ingressList service.Ingress)) err,
          consumed + 1⟩
      else if attempts > serviceUpdateAttempts then
        ⟨Outcome.returned (exceededMessage attempts) none, consumed + 1⟩
      else settleLoop ingressList err rest (attempts + 1) (consumed + 1)
    | _ => ⟨Outcome.panicked, consumed + 1⟩

/-- The watch filter: `strings.Join([]string{"metadata.name", name}, "=")`. -/
def fieldSelector (name : String) : String :=
  "=".intercalate ["metadata.name", name]

/-- The function `waitUntilServiceSettled`.  The `timeout` argument is accepted and not
used.  The error of the snapshot `Get` stays in `err` and is only ever returned next to
a success status. -/
def waitUntilServiceSettled {σ : Type} (clientset : Clientset σ) (ns name : String)
    (_timeout : Int) (s : σ) : Ran σ Settled :=
  match clientset.Watch ns (fieldSelector name) s with
  | ((_, some e), s1) =>
    ⟨⟨Outcome.returned "" (some e), 0⟩, s1, [Call.Watch ns (fieldSelector name)]⟩
  | ((watcher, none), s1) =>
    match clientset.Get ns name s1 with
    | ((liveService, err), s2) =>
      let issued := [Call.Watch ns (fieldSelector name), Call.Get ns name]
      match liveService with
      | none => ⟨⟨Outcome.panicked, 0⟩, s2, issued⟩
      | some live =>
        if live.Ingress.length > 0 then
          ⟨⟨Outcome.returned (updatedMessage (appendIngress [] live.Ingress)) err, 0⟩, s2, issued⟩
        else
          match watcher with
          | none => ⟨⟨Outcome.panicked, 0⟩, s2, issued⟩
          | some w => ⟨settleLoop [] err w.ResultChan 0 0, s2, issued⟩

/-- A clientset that answers every call with a fixed reply and keeps no state. -/
def scripted (get : Option Service × Option Error) (delete : Option Error)
    (create : Option Service × Option Error) (watch : Option Watcher × Option Error) :
    Clientset Unit where
  Get := fun _ _ s => (get, s)
  Delete := fun _ _ s => (delete, s)
  Create := fun _ _ s => (create, s)
  Watch := fun _ _ s => (watch, s)

/-- An event whose object is a Service without load-balancer ingress. -/
def Event.pending (e : Event) : Prop :=
  ∃ service : Service, e.Object = Object.Service service ∧ service.Ingress = []

/-- An event carrying a Service without any load-balancer ingress. -/
def pendingEvent (name : String) : Event := ⟨"MODIFIED", Object.Service ⟨name, []⟩⟩

/-! ## plugin.go -/

/-- The struct `KubeConfig`. -/
structure KubeConfig where
  Ca : String
  Server : String
  Token : String
  Namespace : String
  InsecureSkipTLSVerify : Bool
  deriving DecidableEq, Repr

/-- The struct `Plugin`. -/
structure Plugin where
  Template : String
  KubeConfig : KubeConfig
  ConfigMapFile : String
  deriving DecidableEq, Repr

/-- The constant `defaultNamespace`. -/
def defaultNamespace : String := "default"

/-- A `reflect.Value` as far as `getStructFieldStringValueOrDefault` looks at it: the zero
(invalid) Value, a string, a nil pointer, a pointer to a value, or a value of any other
kind. -/
inductive Value where
  | invalid
  | string (s : String)
  | nilPtr
  | ptr (target : Value)
  | other
  deriving DecidableEq, Repr

/-- The struct behind the decoded `runtime.Object`, as `FieldByName` sees it: its fields
by name, those promoted from embedded structs (such as `ObjectMeta.Namespace`) included. -/
abbrev Struct := List (String × Value)

/-- The method `reflect.Value.FieldByName`: the zero Value when there is no such field. -/
def FieldByName (o : Struct) (fieldName : String) : Value :=
  match o.lookup fieldName with
  | some v => v
  | none => Value.invalid

/-- The method `reflect.Value.IsValid`. -/
def Value.IsValid : Value → Bool
  | Value.invalid => false
  | _ => true

/-- The function `reflect.Indirect`: the pointee of a pointer (the zero Value for a nil
pointer), the value itself otherwise. -/
def Indirect : Value → Value
  | Value.ptr target => target
  | Value.nilPtr => Value.invalid
  | v => v

/-- The function `getStructFieldStringValueOrDefault`. -/
def getStructFieldStringValueOrDefault (i : Struct) (fieldName : String) (defValue : String) :
    String :=
  let f := FieldByName i fieldName
  if f.IsValid then
    match Indirect f with
    | Value.string s => s
    | _ => defValue
  else defValue

/-- Line 100 of `Exec`: the assignment to `p.KubeConfig.Namespace`. -/
def Exec.assignNamespace (p : Plugin) (kubernetesObject : Struct) : Plugin :=
  { p with KubeConfig :=
      { p.KubeConfig with
        Namespace := getStructFieldStringValueOrDefault kubernetesObject "Namespace"
          defaultNamespace } }

/-- The namespace `Exec` hands to the appliers and watchers: `p.KubeConfig.Namespace` after
line 100. -/
def Exec.appliedNamespace (p : Plugin) (kubernetesObject : Struct) : String :=
  (Exec.assignNamespace p kubernetesObject).KubeConfig.Namespace

/-- The precedence rule in the words of the specification: the configured namespace when
it is non-empty, otherwise the manifest's when that is non-empty, otherwise the default. -/
def specNamespace (configured manifest : String) : String :=
  if configured ≠ "" then configured
  else if manifest ≠ "" then manifest
  else defaultNamespace

/-- A decoded Service object with `ObjectMeta.Namespace = m`, as reflection sees it. -/
def decodedService (name m : String) : Struct :=
  [("Kind", Value.string "Service"), ("APIVersion", Value.string "v1"),
   ("Name", Value.string name), ("Namespace", Value.string m),
   ("Spec", Value.other), ("Status", Value.other)]

/-- A plugin configuration with the namespace option set to `c`. -/
def pluginWithNamespace (c : String) : Plugin :=
  ⟨"service.yml", ⟨"CA", "https://cluster", "TOKEN", c, false⟩, ""⟩

/-- Removes the literal `lit` from the front of `s`, if `s` starts with it. -/
def dropLiteral : List Char → List Char → Option (List Char)
  | [], s => some s
  | _ :: _, [] => none
  | p :: ps, c :: cs => if p = c then dropLiteral ps cs else none

/-- Splits a line at its last `=`: the greedy `(.*)=` followed by `(.*)`. -/
def splitLastEq : List Char → Option (List Char × List Char)
  | [] => none
  | c :: cs =>
    match splitLastEq cs with
    | some (a, b) => some (c :: a, b)
    | none => if c = '=' then some ([], cs) else none

/-- The call `re.FindStringSubmatch(value)` for `re = ^LIT(.*)=(.*)` where `LIT` is a
literal: `matches[1]` and `matches[2]`, or `none` when `re.MatchString(value)` is false.
Go regular expressions are leftmost with greedy `*`, `^` matches at the start of the
text only and `.` does not match a newline, so the match lies in the first line of the
text, the first group runs up to the last `=` of that line and the second group takes
the rest of the line. -/
def FindStringSubmatch (literal : String) (value : String) : Option (String × String) :=
  match dropLiteral literal.data value.data with
  | none => none
  | some rest =>
    match splitLastEq (rest.takeWhile (fun c => c != '\n')) with
    | none => none
    | some (k, v) => some (String.mk k, String.mk v)

/-- The template context `ctx`, a Go `map[string]string`, as a list of bindings with
distinct keys. -/
abbrev Context := List (String × String)

/-- The assignment `ctx[key] = value`. -/
def Context.set (ctx : Context) (key value : String) : Context :=
  ctx.filter (fun kv => kv.1 != key) ++ [(key, value)]

/-- The body of the loop over `pluginEnv`: both patterns are tried on every entry.
`ToLower` stands for `strings.ToLower`. -/
def contextStep (ToLower : String → String) (ctx : Context) (value : String) : Context :=
  let ctx1 :=
    match FindStringSubmatch "PLUGIN_" value with
    | some (k, v) => ctx.set (ToLower k) v
    | none => ctx
  match FindStringSubmatch "DRONE_" value with
  | some (k, v) => ctx1.set (ToLower k) v
  | none => ctx1

/-- Lines 55-71 of `Exec`: the context built from the environment `pluginEnv`. -/
def buildContext (ToLower : String → String) (pluginEnv : List String) : Context :=
  pluginEnv.foldl (contextStep ToLower) []

/-! ## Lemmas about the watcher loop -/

/-- The appending loop adds the addresses of the entries, in order, behind what the list
already held. -/
theorem appendIngress_eq (ingressList : List String) (entries : List LoadBalancerIngress) :
    appendIngress ingressList entries = ingressList ++ entries.map ingressAddress := by
  unfold appendIngress
  induction entries generalizing ingressList with
  | nil => simp
  | cons i rest ih => simp [List.foldl_cons, ih]

/-- One pending event seen while the counter is at most the ceiling moves the loop on. -/
theorem settleLoop_pending (ingressList : List String) (err : Option Error) (e : Event)
    (rest : List Event) (attempts consumed : Nat) (he : e.pending)
    (ha : attempts ≤ serviceUpdateAttempts) :
    settleLoop ingressList err (e :: rest) attempts consumed =
      settleLoop ingressList err rest (attempts + 1) (consumed + 1) := by
  obtain ⟨service, hobj, hing⟩ := he
  have hlt : ¬ (attempts > serviceUpdateAttempts) := Nat.not_lt.mpr ha
  simp only [settleLoop, hobj, hing, List.length_nil, gt_iff_lt, lt_self_iff_false, if_false]
  rw [if_neg hlt]

/-- A run of pending events that never pushes the counter past the ceiling is skipped. -/
theorem settleLoop_skip (ingressList : List String) (err : Option Error) (pre : List Event) :
    ∀ (rest : List Event) (attempts consumed : Nat), (∀ e ∈ pre, e.pending) →
      attempts + pre.length ≤ serviceUpdateAttempts + 1 →
      settleLoop ingressList err (pre ++ rest) attempts consumed =
        settleLoop ingressList err rest (attempts + pre.length) (consumed + pre.length) := by
  induction pre with
  | nil => intro rest attempts consumed _ _; simp
  | cons e pre ih =>
    intro rest attempts consumed hall hlen
    have he : e.pending := hall e (List.mem_cons_self e pre)
    have hpre : ∀ x ∈ pre, x.pending := fun x hx => hall x (List.mem_cons_of_mem e hx)
    simp only [List.length_cons] at hlen
    have ha : attempts ≤ serviceUpdateAttempts := by omega
    rw [List.cons_append, settleLoop_pending ingressList err e (pre ++ rest) attempts consumed he ha]
    rw [ih rest (attempts + 1) (consumed + 1) hpre (by omega)]
    simp only [List.length_cons]
    congr 1 <;> omega

/-- The loop reports at least the events it was started with, and one more when it
returns. -/
theorem settleLoop_consumed (ingressList : List String) (err : Option Error)
    (events : List Event) :
    ∀ (attempts consumed : Nat),
      consumed ≤ (settleLoop ingressList err events attempts consumed).consumed ∧
      (∀ state e, (settleLoop ingressList err events attempts consumed).outcome =
          Outcome.returned state e →
        consumed + 1 ≤ (settleLoop ingressList err events attempts consumed).consumed) := by
  induction events with
  | nil => intro attempts consumed; simp [settleLoop]
  | cons ev rest ih =>
    intro attempts consumed
    have h := ih (attempts + 1) (consumed + 1)
    unfold settleLoop
    split
    · split
      · simp
      · split
        · simp
        · refine ⟨by omega, fun state e hret => ?_⟩
          have := h.2 state e hret
          omega
    · simp

/-! ## The Service applier -/

/-- General form of the query-error path: whenever the existence query fails with an error that is not a 404,
`CreateOrUpdateService` goes on to `Create` and returns the outcome of `Create`. -/
theorem CreateOrUpdateService_after_query_error {σ : Type} (clientset : Clientset σ)
    (ns : String) (service : Service) (s s1 : σ) (found : Option Service) (e : Error)
    (hget : clientset.Get ns service.Name s = ((found, some e), s1))
    (hnf : e.isNotFound = false) :
    (CreateOrUpdateService clientset ns service s).calls =
        [Call.Get ns service.Name, Call.Create ns service] ∧
      (CreateOrUpdateService clientset ns service s).value =
        (clientset.Create ns service s1).1.2 := by
  simp [CreateOrUpdateService, serviceExists, createAndReturn, hget, hnf]

/-- C1 (fails on the code): the existence query fails with a 500 status error; the code
does not return that error but issues `Create` and returns the nil error of `Create`. -/
theorem CreateOrUpdateService_query_error_ignored :
    (CreateOrUpdateService
        (scripted (none, some (Error.StatusError 500 "internal error")) none
          (some ⟨"demo", []⟩, none) (none, none))
        "prod" ⟨"demo", []⟩ ()).value = none ∧
      (CreateOrUpdateService
        (scripted (none, some (Error.StatusError 500 "internal error")) none
          (some ⟨"demo", []⟩, none) (none, none))
        "prod" ⟨"demo", []⟩ ()).calls =
        [Call.Get "prod" "demo", Call.Create "prod" ⟨"demo", []⟩] := by
  decide

/-- C6: when the existence query finds a service, `Delete` is issued right after the query
and before any `Create`; a `Delete` error other than not-found is returned and no
`Create` is issued; after a successful `Delete` or a not-found `Delete`, `Create` is
issued and its outcome returned. -/
theorem CreateOrUpdateService_existing {σ : Type} (clientset : Clientset σ) (ns : String)
    (service existing : Service) (s s1 s2 : σ) (d : Option Error)
    (hget : clientset.Get ns service.Name s = ((some existing, none), s1))
    (hdel : clientset.Delete ns service.Name s1 = (d, s2)) :
    (∀ e, d = some e → e.isNotFound = false →
      (CreateOrUpdateService clientset ns service s).value = some e ∧
      (CreateOrUpdateService clientset ns service s).calls =
        [Call.Get ns service.Name, Call.Delete ns service.Name] ∧
      (CreateOrUpdateService clientset ns service s).store = s2) ∧
    ((d = none ∨ ∃ e, d = some e ∧ e.isNotFound = true) →
      (CreateOrUpdateService clientset ns service s).value =
        (clientset.Create ns service s2).1.2 ∧
      (CreateOrUpdateService clientset ns service s).calls =
        [Call.Get ns service.Name, Call.Delete ns service.Name, Call.Create ns service] ∧
      (CreateOrUpdateService clientset ns service s).store =
        (clientset.Create ns service s2).2) := by
  refine ⟨?_, ?_⟩
  · intro e hd hnf
    subst hd
    simp [CreateOrUpdateService, serviceExists, deleteService, hget, hdel, hnf]
  · rintro (hd | ⟨e, hd, hnf⟩)
    · subst hd
      simp [CreateOrUpdateService, serviceExists, deleteService, createAndReturn, hget, hdel]
    · subst hd
      simp [CreateOrUpdateService, serviceExists, deleteService, createAndReturn, hget, hdel,
        hnf]

/-- C6 at a store where the service exists and `Delete` fails with a 403: the error comes
back and only the query and the `Delete` were issued. -/
theorem CreateOrUpdateService_existing_witness :
    (CreateOrUpdateService
        (scripted (some ⟨"demo", []⟩, none) (some (Error.StatusError 403 "forbidden"))
          (some ⟨"demo", []⟩, none) (none, none))
        "prod" ⟨"demo", []⟩ ()).value = some (Error.StatusError 403 "forbidden") ∧
      (CreateOrUpdateService
        (scripted (some ⟨"demo", []⟩, none) (some (Error.StatusError 403 "forbidden"))
          (some ⟨"demo", []⟩, none) (none, none))
        "prod" ⟨"demo", []⟩ ()).calls = [Call.Get "prod" "demo", Call.Delete "prod" "demo"] :=
  have h := (CreateOrUpdateService_existing
    (scripted (some ⟨"demo", []⟩, none) (some (Error.StatusError 403 "forbidden"))
      (some ⟨"demo", []⟩, none) (none, none))
    "prod" ⟨"demo", []⟩ ⟨"demo", []⟩ () () () (some (Error.StatusError 403 "forbidden"))
    rfl rfl).1 (Error.StatusError 403 "forbidden") rfl (by decide)
  ⟨h.1, h.2.1⟩

/-- C7: when the existence query reports not-found, the calls issued are the query and one
`Create`, no `Delete`, and the result is the error returned by `Create` (nil on
success). -/
theorem CreateOrUpdateService_absent {σ : Type} (clientset : Clientset σ) (ns : String)
    (service : Service) (s s1 : σ) (found : Option Service) (e : Error)
    (hget : clientset.Get ns service.Name s = ((found, some e), s1))
    (hnf : e.isNotFound = true) :
    (CreateOrUpdateService clientset ns service s).calls =
        [Call.Get ns service.Name, Call.Create ns service] ∧
      (CreateOrUpdateService clientset ns service s).value =
        (clientset.Create ns service s1).1.2 ∧
      (CreateOrUpdateService clientset ns service s).store =
        (clientset.Create ns service s1).2 := by
  simp [CreateOrUpdateService, serviceExists, createAndReturn, hget, hnf]

/-- C7 at a store without the service where `Create` is refused with a 409: one `Create`,
no `Delete`, and the 409 is the result. -/
theorem CreateOrUpdateService_absent_witness :
    (CreateOrUpdateService
        (scripted (none, some (Error.StatusError 404 "not found")) none
          (none, some (Error.StatusError 409 "conflict")) (none, none))
        "prod" ⟨"demo", []⟩ ()).calls =
        [Call.Get "prod" "demo", Call.Create "prod" ⟨"demo", []⟩] ∧
      (CreateOrUpdateService
        (scripted (none, some (Error.StatusError 404 "not found")) none
          (none, some (Error.StatusError 409 "conflict")) (none, none))
        "prod" ⟨"demo", []⟩ ()).value = some (Error.StatusError 409 "conflict") :=
  have h := CreateOrUpdateService_absent
    (scripted (none, some (Error.StatusError 404 "not found")) none
      (none, some (Error.StatusError 409 "conflict")) (none, none))
    "prod" ⟨"demo", []⟩ () () none (Error.StatusError 404 "not found") rfl (by decide)
  ⟨h.1, h.2.1⟩

/-! ## The settlement watcher -/

/-- The watch-open failure path: when opening the watch fails, the error is returned with an empty
status, no snapshot is read and no event is consumed. -/
theorem waitUntilServiceSettled_watch_error {σ : Type} (clientset : Clientset σ)
    (ns name : String) (timeout : Int) (s s1 : σ) (w : Option Watcher) (e : Error)
    (hwatch : clientset.Watch ns (fieldSelector name) s = ((w, some e), s1)) :
    (waitUntilServiceSettled clientset ns name timeout s).value =
        ⟨Outcome.returned "" (some e), 0⟩ ∧
      (waitUntilServiceSettled clientset ns name timeout s).calls =
        [Call.Watch ns (fieldSelector name)] := by
  simp [waitUntilServiceSettled, hwatch]

/-- C3 (fails on the code): the watch opens and the snapshot read fails.  With twelve
pending events on the channel the function consumes all twelve and returns the
exhaustion status with a nil error; with one settled event it consumes that event
before it returns the error of the read. -/
theorem waitUntilServiceSettled_snapshot_error_lost :
    (waitUntilServiceSettled
        (scripted (some ⟨"", []⟩, some (Error.other "connection refused")) none (none, none)
          (some ⟨List.replicate 12 (pendingEvent "demo")⟩, none))
        "prod" "demo" 120 ()).value =
        ⟨Outcome.returned "⛔️ Service update failed. Exceeded 11 attempts" none, 12⟩ ∧
      (waitUntilServiceSettled
        (scripted (some ⟨"", []⟩, some (Error.other "connection refused")) none (none, none)
          (some ⟨[⟨"MODIFIED", Object.Service ⟨"demo", [⟨"10.0.0.5", ""⟩]⟩⟩]⟩, none))
        "prod" "demo" 120 ()).value =
        ⟨Outcome.returned "📦 Updated: 10.0.0.5" (some (Error.other "connection refused")), 1⟩ := by
  decide

/-- General form of the eleven-event run: after a snapshot without ingress, eleven pending events never make
the function return, whatever the channel delivers next. -/
theorem waitUntilServiceSettled_eleven_pending {σ : Type} (clientset : Clientset σ)
    (ns name : String) (timeout : Int) (s s1 s2 : σ) (w : Watcher) (live : Service)
    (err : Option Error) (pre rest : List Event)
    (hwatch : clientset.Watch ns (fieldSelector name) s = ((some w, none), s1))
    (hget : clientset.Get ns name s1 = ((some live, err), s2))
    (hlive : live.Ingress = [])
    (hchan : w.ResultChan = pre ++ rest)
    (hpre : pre.length = 11) (hpending : ∀ e ∈ pre, e.pending) :
    ∀ state e, (waitUntilServiceSettled clientset ns name timeout s).value.outcome =
        Outcome.returned state e →
      12 ≤ (waitUntilServiceSettled clientset ns name timeout s).value.consumed := by
  intro state e
  have hskip := settleLoop_skip [] err pre rest 0 0 hpending
    (by simp [hpre, serviceUpdateAttempts])
  simp only [waitUntilServiceSettled, hwatch, hget, hlive, List.length_nil, gt_iff_lt,
    lt_self_iff_false, if_false, hchan, hskip, hpre, Nat.zero_add]
  intro hret
  exact (settleLoop_consumed [] err rest 11 11).2 state e hret

/-- C4 (fails on the code): after a snapshot without ingress and eleven pending events the
function has not returned: it blocks in the twelfth receive, or panics when the channel is
closed at that point.  It takes a twelfth pending event to end the loop, and the status
then says 11. -/
theorem waitUntilServiceSettled_eleven_events_no_return :
    (waitUntilServiceSettled
        (scripted (some ⟨"demo", []⟩, none) none (none, none)
          (some ⟨List.replicate 11 (pendingEvent "demo")⟩, none))
        "prod" "demo" 120 ()).value = ⟨Outcome.blocked, 11⟩ ∧
      (waitUntilServiceSettled
        (scripted (some ⟨"demo", []⟩, none) none (none, none)
          (some ⟨List.replicate 11 (pendingEvent "demo") ++ [zeroEvent]⟩, none))
        "prod" "demo" 120 ()).value = ⟨Outcome.panicked, 12⟩ ∧
      (waitUntilServiceSettled
        (scripted (some ⟨"demo", []⟩, none) none (none, none)
          (some ⟨List.replicate 12 (pendingEvent "demo")⟩, none))
        "prod" "demo" 120 ()).value =
        ⟨Outcome.returned "⛔️ Service update failed. Exceeded 11 attempts" none, 12⟩ := by
  decide

/-- C5 (fails on the code): after a snapshot without ingress, the zero event of a closed
channel and an event whose object is not a Service both end the run in a panic of the
type assertion. -/
theorem waitUntilServiceSettled_panics :
    (waitUntilServiceSettled
        (scripted (some ⟨"demo", []⟩, none) none (none, none) (some ⟨[zeroEvent]⟩, none))
        "prod" "demo" 120 ()).value.outcome = Outcome.panicked ∧
      (waitUntilServiceSettled
        (scripted (some ⟨"demo", []⟩, none) none (none, none)
          (some ⟨[⟨"ERROR", Object.other "*v1.Status"⟩]⟩, none))
        "prod" "demo" 120 ()).value.outcome = Outcome.panicked := by
  decide

/-- C8: for every N < 10, after a successful snapshot without ingress, N pending events
followed by an event whose Service has the non-empty ingress list L make the function
return after exactly N + 1 events, with a nil error and the status "📦 Updated: "
followed by the addresses of L (IP, or Hostname when the IP is empty) in order, joined
by ", ". -/
theorem waitUntilServiceSettled_settles_on_event {σ : Type} (clientset : Clientset σ)
    (ns name : String) (timeout : Int) (s s1 s2 : σ) (w : Watcher) (live settled : Service)
    (N : Nat) (pre rest : List Event) (eventType : String)
    (hN : N < 10)
    (hwatch : clientset.Watch ns (fieldSelector name) s = ((some w, none), s1))
    (hget : clientset.Get ns name s1 = ((some live, none), s2))
    (hlive : live.Ingress = [])
    (hchan : w.ResultChan = pre ++ ⟨eventType, Object.Service settled⟩ :: rest)
    (hpre : pre.length = N) (hpending : ∀ e ∈ pre, e.pending)
    (hL : settled.Ingress ≠ []) :
    (waitUntilServiceSettled clientset ns name timeout s).value =
      ⟨Outcome.returned
        ("📦 Updated: " ++ ", ".intercalate
          (settled.Ingress.map (fun i => if i.IP = "" then i.Hostname else i.IP)))
        none, N + 1⟩ := by
  have hskip := settleLoop_skip [] none pre (⟨eventType, Object.Service settled⟩ :: rest) 0 0
    hpending (by simp only [serviceUpdateAttempts]; omega)
  have hpos : 0 < settled.Ingress.length := List.length_pos.mpr hL
  simp only [waitUntilServiceSettled, hwatch, hget, hlive, List.length_nil, gt_iff_lt,
    lt_self_iff_false, if_false, hchan, hskip, hpre, Nat.zero_add]
  simp only [settleLoop, hpos, if_true, appendIngress_eq, List.nil_append, updatedMessage]
  rfl

/-- C8 at N = 2 with a two-entry ingress list, one entry with an IP and one with only a
hostname, and a further event left on the channel. -/
theorem waitUntilServiceSettled_settles_on_event_witness :
    (waitUntilServiceSettled
        (scripted (some ⟨"demo", []⟩, none) none (none, none)
          (some ⟨[pendingEvent "demo", pendingEvent "demo"] ++
            ⟨"MODIFIED", Object.Service ⟨"demo", [⟨"10.0.0.5", ""⟩, ⟨"", "lb.example.com"⟩]⟩⟩ ::
              [pendingEvent "demo"]⟩, none))
        "prod" "demo" 120 ()).value =
      ⟨Outcome.returned "📦 Updated: 10.0.0.5, lb.example.com" none, 3⟩ :=
  waitUntilServiceSettled_settles_on_event
    (scripted (some ⟨"demo", []⟩, none) none (none, none)
      (some ⟨[pendingEvent "demo", pendingEvent "demo"] ++
        ⟨"MODIFIED", Object.Service ⟨"demo", [⟨"10.0.0.5", ""⟩, ⟨"", "lb.example.com"⟩]⟩⟩ ::
          [pendingEvent "demo"]⟩, none))
    "prod" "demo" 120 () () ()
    ⟨[pendingEvent "demo", pendingEvent "demo"] ++
      ⟨"MODIFIED", Object.Service ⟨"demo", [⟨"10.0.0.5", ""⟩, ⟨"", "lb.example.com"⟩]⟩⟩ ::
        [pendingEvent "demo"]⟩
    ⟨"demo", []⟩ ⟨"demo", [⟨"10.0.0.5", ""⟩, ⟨"", "lb.example.com"⟩]⟩ 2
    [pendingEvent "demo", pendingEvent "demo"] [pendingEvent "demo"] "MODIFIED"
    (by decide) rfl rfl rfl rfl rfl
    (by
      intro e he
      simp only [List.mem_cons, List.mem_singleton, List.not_mem_nil, or_false, or_self] at he
      subst he
      exact ⟨⟨"demo", []⟩, rfl, rfl⟩)
    (by decide)

/-- C9: when the watch opens and the snapshot read succeeds with at least one ingress
entry, the function returns the status "📦 Updated: " followed by the snapshot's
addresses (IP, or Hostname when the IP is empty) joined by ", ", with a nil error and
without consuming an event, whatever the watcher holds. -/
theorem waitUntilServiceSettled_fast_path {σ : Type} (clientset : Clientset σ)
    (ns name : String) (timeout : Int) (s s1 s2 : σ) (w : Option Watcher) (live : Service)
    (hwatch : clientset.Watch ns (fieldSelector name) s = ((w, none), s1))
    (hget : clientset.Get ns name s1 = ((some live, none), s2))
    (hL : live.Ingress ≠ []) :
    (waitUntilServiceSettled clientset ns name timeout s).value =
      ⟨Outcome.returned
        ("📦 Updated: " ++ ", ".intercalate
          (live.Ingress.map (fun i => if i.IP = "" then i.Hostname else i.IP)))
        none, 0⟩ := by
  have hpos : 0 < live.Ingress.length := List.length_pos.mpr hL
  simp only [waitUntilServiceSettled, hwatch, hget, gt_iff_lt, hpos, if_true,
    appendIngress_eq, List.nil_append, updatedMessage]
  rfl

/-- C9 at a snapshot with one hostname-only entry while the channel holds a settled event
for another address: the snapshot's hostname is reported and nothing is consumed. -/
theorem waitUntilServiceSettled_fast_path_witness :
    (waitUntilServiceSettled
        (scripted (some ⟨"demo", [⟨"", "lb.example.com"⟩]⟩, none) none (none, none)
          (some ⟨[⟨"MODIFIED", Object.Service ⟨"demo", [⟨"10.0.0.5", ""⟩]⟩⟩]⟩, none))
        "prod" "demo" 120 ()).value =
      ⟨Outcome.returned "📦 Updated: lb.example.com" none, 0⟩ :=
  waitUntilServiceSettled_fast_path
    (scripted (some ⟨"demo", [⟨"", "lb.example.com"⟩]⟩, none) none (none, none)
      (some ⟨[⟨"MODIFIED", Object.Service ⟨"demo", [⟨"10.0.0.5", ""⟩]⟩⟩]⟩, none))
    "prod" "demo" 120 () () ()
    (some ⟨[⟨"MODIFIED", Object.Service ⟨"demo", [⟨"10.0.0.5", ""⟩]⟩⟩]⟩)
    ⟨"demo", [⟨"", "lb.example.com"⟩]⟩ rfl rfl (by decide)

/-! ## Namespace resolution -/

/-- General form of the namespace assignment: for a decoded Service the namespace handed on is the manifest's
namespace field, whatever the configuration says and also when the field is empty. -/
theorem Exec_appliedNamespace_decodedService (p : Plugin) (name m : String) :
    Exec.appliedNamespace p (decodedService name m) = m := by
  simp [Exec.appliedNamespace, Exec.assignNamespace, getStructFieldStringValueOrDefault,
    FieldByName, decodedService, List.lookup, Value.IsValid, Indirect]

/-- C2 (fails on the code): with the namespace option set to "prod" and a manifest that
names "staging" the code applies to "staging" where the rule gives "prod"; with both
empty the code applies to the empty namespace where the rule gives "default". -/
theorem Exec_appliedNamespace_ignores_configuration :
    Exec.appliedNamespace (pluginWithNamespace "prod") (decodedService "demo" "staging") =
        "staging" ∧
      specNamespace "prod" "staging" = "prod" ∧
      Exec.appliedNamespace (pluginWithNamespace "") (decodedService "demo" "") = "" ∧
      specNamespace "" "" = "default" := by
  decide

/-! ## The template context -/

/-- A literal is removed from the front of anything that starts with it. -/
theorem dropLiteral_append (lit rest : List Char) : dropLiteral lit (lit ++ rest) = some rest := by
  induction lit with
  | nil => cases rest <;> simp [dropLiteral]
  | cons c cs ih => simp [dropLiteral, ih]

/-- A line without `=` does not split. -/
theorem splitLastEq_none (v : List Char) (hv : '=' ∉ v) : splitLastEq v = none := by
  induction v with
  | nil => simp [splitLastEq]
  | cons c cs ih =>
    have hc : c ≠ '=' := fun h => hv (by simp [h])
    have hcs : '=' ∉ cs := fun h => hv (List.mem_cons_of_mem c h)
    simp [splitLastEq, ih hcs, hc]

/-- A line splits at its last `=`: what follows an `=` and holds no `=` itself is the
second part, everything before is the first. -/
theorem splitLastEq_append (k v : List Char) (hv : '=' ∉ v) :
    splitLastEq (k ++ '=' :: v) = some (k, v) := by
  induction k with
  | nil => simp [splitLastEq, splitLastEq_none v hv]
  | cons c cs ih => simp [splitLastEq, ih]

/-- A text without newline is its own first line. -/
theorem takeWhile_no_newline (l : List Char) (hl : '\n' ∉ l) :
    l.takeWhile (fun c => c != '\n') = l := by
  induction l with
  | nil => simp
  | cons c cs ih =>
    have hc : c ≠ '\n' := fun h => hl (by simp [h])
    have hcs : '\n' ∉ cs := fun h => hl (List.mem_cons_of_mem c h)
    simp [List.takeWhile_cons, hc, ih hcs]

/-- The pattern with literal `lit` on the entry `lit ++ K ++ "=" ++ V`: when neither `K`
nor `V` holds a newline and `V` holds no `=`, the groups are `K` and `V`. -/
theorem FindStringSubmatch_entry (lit K V : String) (hKn : '\n' ∉ K.data)
    (hVn : '\n' ∉ V.data) (hV : '=' ∉ V.data) :
    FindStringSubmatch lit (lit ++ K ++ "=" ++ V) = some (K, V) := by
  have hdata : (lit ++ K ++ "=" ++ V).data = lit.data ++ (K.data ++ '=' :: V.data) := by
    simp [String.data_append]
  have hline : '\n' ∉ K.data ++ '=' :: V.data := by
    simp only [List.mem_append, List.mem_cons, not_or]
    exact ⟨hKn, by decide, hVn⟩
  simp only [FindStringSubmatch, hdata, dropLiteral_append, takeWhile_no_newline _ hline,
    splitLastEq_append _ _ hV]

/-- The context of a well-behaved entry: an entry `P ++ K ++ "=" ++ V` with `P` one of the two literals
yields the single binding of the lower-cased `K` to `V`, provided `V` holds neither `=`
nor newline and `K` holds no newline. -/
theorem buildContext_single_entry (ToLower : String → String) (P K V : String)
    (hP : P = "PLUGIN_" ∨ P = "DRONE_") (hKn : '\n' ∉ K.data) (hVn : '\n' ∉ V.data)
    (hV : '=' ∉ V.data) :
    buildContext ToLower [P ++ K ++ "=" ++ V] = [(ToLower K, V)] := by
  have hother1 : FindStringSubmatch "DRONE_" ("PLUGIN_" ++ K ++ "=" ++ V) = none := by
    have hd : ("PLUGIN_" ++ K ++ "=" ++ V).data =
        'P' :: ("LUGIN_".data ++ (K.data ++ '=' :: V.data)) := by
      simp [String.data_append]
    have hl : ("DRONE_" : String).data = 'D' :: "RONE_".data := rfl
    simp [FindStringSubmatch, hd, hl, dropLiteral]
  have hother2 : FindStringSubmatch "PLUGIN_" ("DRONE_" ++ K ++ "=" ++ V) = none := by
    have hd : ("DRONE_" ++ K ++ "=" ++ V).data =
        'D' :: ("RONE_".data ++ (K.data ++ '=' :: V.data)) := by
      simp [String.data_append]
    have hl : ("PLUGIN_" : String).data = 'P' :: "LUGIN_".data := rfl
    simp [FindStringSubmatch, hd, hl, dropLiteral]
  rcases hP with h | h <;> subst h
  · simp [buildContext, contextStep, FindStringSubmatch_entry _ K V hKn hVn hV, hother1,
      Context.set]
  · simp [buildContext, contextStep, FindStringSubmatch_entry _ K V hKn hVn hV, hother2,
      Context.set]

/-- C10 (fails on the code): for the entry `PLUGIN_FOO=a=b`, the variable `FOO` with value
`a=b`, the context holds one binding from the lower-cased `FOO=a` to `b`, which is not
the binding of the lower-cased `FOO` to `a=b`. -/
theorem buildContext_value_with_equals (ToLower : String → String) :
    buildContext ToLower ["PLUGIN_" ++ "FOO" ++ "=" ++ "a=b"] = [(ToLower "FOO=a", "b")] ∧
      buildContext ToLower ["PLUGIN_" ++ "FOO" ++ "=" ++ "a=b"] ≠ [(ToLower "FOO", "a=b")] := by
  refine ⟨rfl, ?_⟩
  have h : buildContext ToLower ["PLUGIN_" ++ "FOO" ++ "=" ++ "a=b"] =
      [(ToLower "FOO=a", "b")] := rfl
  rw [h]
  intro hc
  have hv : ("b" : String) = "a=b" := congrArg (fun l => (l.map Prod.snd).headD "") hc
  exact absurd hv (by decide)

end Kubulous
